import Mathlib

/-!
Verification development for the keg-hub CLI's Task Resolution & Tap-Extension
subsystem.  The definitions below are a shallow embedding of
`repos/keg-cli/src/tasks/tap/link.js` (tap-link registration) and
`repos/keg-cli/src/utils/task/findTask.js` (task resolution).  JavaScript
objects become Lean structures; object maps become association lists;
JS truthiness of strings/options is modelled explicitly; external
collaborators (prompt service, filesystem, dynamic module loader, service
injector) become explicit function parameters.  Mutation of the shared
global-config object is modelled by threading the config value through and
returning it; aliasing of the options array is modelled separately with a
small explicit heap (see the `Heap` section).
-/

/-- A registered tap link as stored in `GlobalConfig.tapLinks`
(spec section 3, `TapLink`).  An absent/empty `path` is modelled by `""`
(JS falsy string); the optional custom-tasks entry file by `Option String`. -/
structure TapLink where
  path : String
  tasks : Option String
deriving DecidableEq

/-- The `{}` / `{ ...undefined }` tap object: no path, no tasks entry. -/
def defaultTapLink : TapLink := { path := "", tasks := none }

/-- The slice of the global CLI config the subsystem touches: the
`cli.taps` (TAP_LINKS) container, `none` when the container is absent. -/
structure GlobalConfig where
  tapLinks : Option (List (String × TapLink))
deriving DecidableEq

/-- First-match lookup in an association list (JS object property read). -/
def alookup {α : Type} (l : List (String × α)) (k : String) : Option α :=
  match l with
  | [] => none
  | (k', v) :: rest => if k' = k then some v else alookup rest k

/-- Set a key in an association list (JS object property write). -/
def aset {α : Type} (l : List (String × α)) (k : String) (v : α) :
    List (String × α) :=
  match l with
  | [] => [(k, v)]
  | (k', v') :: rest =>
    if k' = k then (k, v) :: rest else (k', v') :: aset rest k v

/-- `get(globalConfig, TAP_LINKS + '.' + name)`: lookup of a tap link,
`none` when the container or the entry is absent. -/
def tlookup (cfg : GlobalConfig) (name : String) : Option TapLink :=
  match cfg.tapLinks with
  | none => none
  | some m => alookup m name

/-- JS falsy test for an optional string value (`undefined` or `""`). -/
def optStrFalsy (o : Option String) : Bool :=
  match o with
  | none => true
  | some s => s = ""

/-! ## Tap Registry: embedding of `src/tasks/tap/link.js` -/

/-- `ensureAddLink(currentTap, tapName, tapPath, silent)` from link.js:
`currentTap && tapPath ? !silent && ask.confirm(...) : true`.
The operator's answer to the prompt is the `confirm` parameter
(the prompt-service collaborator). -/
def ensureAddLink (currentTap : Option TapLink) (tapName tapPath : String)
    (silent : Bool) (confirm : Bool) : Bool :=
  if currentTap.isSome ∧ tapPath ≠ "" then (!silent) && confirm else true

/-- `checkTapLocation(tapObj, location)` from link.js:
`if(!tapObj.path || tapObj.path !== location) tapObj.path = location`. -/
def checkTapLocation (tapObj : TapLink) (location : String) : TapLink :=
  if tapObj.path = "" ∨ tapObj.path ≠ location then
    { tapObj with path := location }
  else tapObj

/-- The filesystem collaborators used by link.js:
`findPathByName(root, 'tasks', {type:'folder'})` (search results) and
`checkPathExists(file)`. -/
structure FileSys where
  findPathByName : String → List String
  checkPathExists : String → Bool

/-- `path.join(a, b)` as used on the found tasks folder. -/
def joinPath (a b : String) : String := a ++ "/" ++ b

/-- `checkCustomTaskFile(globalConfig, tapObj)` from link.js.  Returns the
JS result collapsed to `Option String` (the index-file path, or `none` for
the falsy returns `false` / `undefined`-from-`Logger.warn`) paired with a
flag recording whether the missing-index warning was logged. -/
def checkCustomTaskFile (fs : FileSys) (tapObj : TapLink) :
    Option String × Bool :=
  match (fs.findPathByName tapObj.path).head? with
  | none => (none, false)
  | some foundPath =>
    if foundPath = "" then (none, false)
    else
      let indexFile := joinPath foundPath "index.js"
      if fs.checkPathExists indexFile then (some indexFile, false)
      else (none, true)

/-- `buildTapObj(globalConfig, silent, name, location)` from link.js.
`none` models the JS `false` return (overwrite declined). -/
def buildTapObj (fs : FileSys) (confirm : Bool) (globalConfig : GlobalConfig)
    (silent : Bool) (name location : String) : Option TapLink :=
  let currentTap := tlookup globalConfig name
  let addLink := ensureAddLink currentTap name location silent confirm
  if addLink = false then none
  else
    let tapObj := checkTapLocation (currentTap.getD defaultTapLink) location
    let customTasksFile := (checkCustomTaskFile fs tapObj).1
    some (match customTasksFile with
      | some f => { tapObj with tasks := some f }
      | none => tapObj)

/-- Modelled from the spec: `addGlobalConfigProp` (KegUtils, not in src)
writes the value at the tap-links path inside the config and persists it
(spec section 4.1 `addLink`: "writes tapObj under name, persists config").
The returned Bool records that a save happened. -/
def addGlobalConfigProp (cfg : GlobalConfig) (name : String)
    (tapObj : TapLink) : GlobalConfig × Bool :=
  ({ cfg with tapLinks := some (aset (cfg.tapLinks.getD []) name tapObj) },
   true)

/-- `addTapLink(globalConfig, name, tapObj)` from link.js: ensures the
tap-links container exists, then sets and saves via `addGlobalConfigProp`. -/
def addTapLink (cfg : GlobalConfig) (name : String) (tapObj : TapLink) :
    GlobalConfig × Bool :=
  let cfg1 :=
    if cfg.tapLinks.isNone then { cfg with tapLinks := some [] } else cfg
  addGlobalConfigProp cfg1 name tapObj

/-- Result of running the `tap link` task: the (possibly updated) config,
whether it was saved, and the user-visible log lines. -/
structure LinkOutcome where
  config : GlobalConfig
  saved : Bool
  logs : List String
deriving DecidableEq

/-- `linkTap(args)` from link.js, with `params = {name, location, silent}`
already destructured and the prompt answer passed as `confirm`. -/
def linkTap (fs : FileSys) (confirm : Bool) (globalConfig : GlobalConfig)
    (silent : Bool) (name location : String) : LinkOutcome :=
  match buildTapObj fs confirm globalConfig silent name location with
  | some tapObj =>
    let res := addTapLink globalConfig name tapObj
    { config := res.1, saved := res.2,
      logs := ["Successfully linked tap " ++ name ++ " => " ++ tapObj.path] }
  | none =>
    { config := globalConfig, saved := false,
      logs := if silent then [] else ["Tap link canceled!"] }

/-! ## Task Resolver: embedding of `src/utils/task/findTask.js` -/

/-- A task definition; only the fields the resolver inspects are kept:
an identifying name and the `inject` flag (spec section 3,
`TaskDefinition`). -/
structure TaskDef where
  id : String
  inject : Bool
deriving DecidableEq

/-- The in-memory task registry: a JS object mapping task names to task
definitions, modelled as an association list with first-match lookup. -/
abbrev Tasks : Type := List (String × TaskDef)

/-- The JS object spread `{ ...base, ...custom }` on two task registries:
custom definitions win on every name collision (lookup-wise, the custom
list is consulted first). -/
def mergeTasks (base custom : Tasks) : Tasks := custom ++ base

/-- The argument object built at the `getCustomTasks` call site in
findTask.js: `{ globalConfig, tasks, command, options }`. -/
structure CustomArgs where
  globalConfig : GlobalConfig
  tasks : Tasks
  command : String
  options : List String

/-- A dynamically `require`d tap task module: either a factory function of
the resolution context (whose invocation may throw) or a static mapping. -/
inductive LoadedModule where
  | func (f : CustomArgs → Except String Tasks)
  | obj (t : Tasks)

/-- The dynamic module loader collaborator: `require(taskFile)`, which may
throw (modelled by `Except.error` carrying the thrown message). -/
def Requirer : Type := String → Except String LoadedModule

/-- Outcome of loading a tap's custom tasks: the merged registry, or a
process exit (`process.exit(code)` after the logged lines). -/
inductive TasksOutcome where
  | ok (tasks : Tasks)
  | exited (code : Nat) (logs : List String)
deriving DecidableEq

/-- `getCustomTasks(args, taskFile)` from findTask.js: `require` the file,
invoke it with `args` when it is a function, and merge the result over
`args.tasks`; any load-time or invocation-time throw is caught, the
offending path is logged, and the process exits with status 1. -/
def getCustomTasks (reqr : Requirer) (args : CustomArgs)
    (taskFile : String) : TasksOutcome :=
  match reqr taskFile with
  | Except.error msg =>
    TasksOutcome.exited 1
      ["Error loading custom tasks from path " ++ taskFile, msg]
  | Except.ok (LoadedModule.func f) =>
    match f args with
    | Except.error msg =>
      TasksOutcome.exited 1
        ["Error loading custom tasks from path " ++ taskFile, msg]
    | Except.ok t => TasksOutcome.ok (mergeTasks args.tasks t)
  | Except.ok (LoadedModule.obj t) => TasksOutcome.ok (mergeTasks args.tasks t)

/-- The `allTasks` computation in `checkLinkedTaps` (findTask.js lines
61-68): `!tapObj.tasks ? tasks : await getCustomTasks({...}, tapObj.tasks)`. -/
def resolveAllTasks (reqr : Requirer) (globalConfig : GlobalConfig)
    (tasks : Tasks) (command : String) (options : List String)
    (tapObj : TapLink) : TasksOutcome :=
  if optStrFalsy tapObj.tasks then TasksOutcome.ok tasks
  else
    getCustomTasks reqr
      { globalConfig := globalConfig, tasks := tasks,
        command := command, options := options }
      (tapObj.tasks.getD "")

/-- Modelled from the spec: the parsed parameter object produced by the
Argument Parser collaborator (`parseArgs`, not in src).  Only the
resolver-injected `tap` binding is modelled (spec step 2c: "override/inject
one parameter: tap = command"). -/
structure ParsedParams where
  tap : String
deriving DecidableEq

/-- Modelled from the spec: `parseArgs(taskDescriptor, rawOptionTokens,
config)` (Argument Parser collaborator, not in src), restricted to the
binding the resolver injects: `params: { tap: command }`. -/
def parseArgs (command : String) (cfg : GlobalConfig) : ParsedParams :=
  { tap := command }

/-- The resolver's transient task data: the located task (possibly absent),
the raw option tokens, and the parsed params once computed. -/
structure TaskData where
  task : Option TaskDef
  options : List String
  params : Option ParsedParams
deriving DecidableEq

/-- Modelled from the spec: `getTask(tasks, command, ...options)` (not in
src) looks the command up in the registry and passes the original option
tokens through (spec steps 2b and 3). -/
def getTask (tasks : Tasks) (command : String) (options : List String) :
    TaskData :=
  { task := alookup tasks command, options := options, params := none }

/-- `arr.splice(arr.length - 1, 0, x)` on a JS array: insert `x` at the
second-to-last position (at index 0 when the array is empty, matching the
negative-index clamp). -/
def spliceSecondToLast (arr : List String) (x : String) : List String :=
  arr.take (arr.length - 1) ++ [x] ++ arr.drop (arr.length - 1)

/-- `get(taskData, 'task.inject')` truthiness. -/
def injectFlag (td : TaskData) : Bool :=
  (td.task.map TaskDef.inject).getD false

/-- The service-injection collaborator `injectService({taskData, app,
injectPath})` (external, spec section 6): a transformation of the task
data given the app name and the tap's path. -/
def Injector : Type := TaskData → String → String → TaskData

/-- Result of `checkLinkedTaps`: the JS `false` (no usable link), a
resolved task data, or a process exit from the custom-task loader. -/
inductive ResolveOutcome where
  | noLink
  | resolved (td : TaskData)
  | exited (code : Nat) (logs : List String)
deriving DecidableEq

/-- `checkLinkedTaps(globalConfig, tasks, command, options)` from
findTask.js.  The global config is threaded through and returned so that
the no-mutation claims are statable; the source performs no write to it. -/
def checkLinkedTaps (reqr : Requirer) (inj : Injector)
    (globalConfig : GlobalConfig) (tasks : Tasks) (command : String)
    (options : List String) : GlobalConfig × ResolveOutcome :=
  match tlookup globalConfig command with
  | none => (globalConfig, ResolveOutcome.noLink)
  | some tapObj =>
    if tapObj.path = "" then (globalConfig, ResolveOutcome.noLink)
    else
      match resolveAllTasks reqr globalConfig tasks command options tapObj with
      | TasksOutcome.exited c logs =>
        (globalConfig, ResolveOutcome.exited c logs)
      | TasksOutcome.ok allTasks =>
        -- `options = [ ...options ]` is a value copy; aliasing is modelled
        -- in the heap embedding below
        let opts := options
        let td0 := getTask allTasks "tap" opts
        let td1 := { td0 with params := some (parseArgs command globalConfig) }
        let td2 :=
          { td1 with
            options := spliceSecondToLast td1.options ("tap=" ++ command) }
        if injectFlag td2 then
          (globalConfig, ResolveOutcome.resolved (inj td2 command tapObj.path))
        else (globalConfig, ResolveOutcome.resolved td2)

/-- Modelled from the spec: `hasHelpArg` (KegUtils helper, not in src)
recognizes a trailing help-flag token. -/
def hasHelpArg (opt : Option String) : Bool :=
  match opt with
  | none => false
  | some s => (["help", "h", "-h", "--help"] : List String).contains s

/-- Modelled from the spec: `validateTask(task, context, isHelpRequested)`
(not in src) fails exactly when no task object is present; a help request
does not change structural validity (spec section 4.4). -/
def validateTask (task : Option TaskDef) (isHelpRequested : Bool) : Bool :=
  task.isSome

/-- Result of `findTask`: the JS falsy return (task not validated), a
found task data, or a process exit propagated from the loader. -/
inductive FindOutcome where
  | notFound
  | found (td : TaskData)
  | exited (code : Nat) (logs : List String)
deriving DecidableEq

/-- `findTask(globalConfig, tasks, command, options)` from findTask.js:
check linked taps first, fall back to the direct lookup, then validate.
The config is threaded through unchanged, as in the source. -/
def findTask (reqr : Requirer) (inj : Injector)
    (globalConfig : GlobalConfig) (tasks : Tasks) (command : String)
    (options : List String) : GlobalConfig × FindOutcome :=
  let res := checkLinkedTaps reqr inj globalConfig tasks command options
  match res.2 with
  | ResolveOutcome.exited c logs => (res.1, FindOutcome.exited c logs)
  | tapRes =>
    let foundTask :=
      match tapRes with
      | ResolveOutcome.resolved td => td
      | _ => getTask tasks command options
    let taskData :=
      if foundTask.task.isSome then foundTask
      else { task := none, options := [], params := none }
    if validateTask taskData.task (hasHelpArg options.getLast?) then
      (res.1, FindOutcome.found taskData)
    else (res.1, FindOutcome.notFound)

/-! ## Heap embedding of the resolver

JS arrays are mutable objects passed by reference: `taskData.options.splice`
mutates the array object `taskData.options` points to.  To state that the
caller's options array is never mutated, the resolver is re-rendered over an
explicit heap of string arrays addressed by reference. -/

/-- A heap of JS string arrays; a reference is an index into `arrs`. -/
structure Heap where
  arrs : List (List String)
deriving DecidableEq

/-- Dereference an array (out-of-range reads give `[]`, never reached for
valid references). -/
def Heap.readArr (h : Heap) (r : Nat) : List String := (h.arrs.getD r [])

/-- Allocate a fresh array (JS array literal / spread), returning its
reference. -/
def Heap.allocArr (h : Heap) (a : List String) : Heap × Nat :=
  ({ arrs := h.arrs ++ [a] }, h.arrs.length)

/-- Overwrite the array behind a reference (in-place mutation such as
`splice`). -/
def Heap.writeArr (h : Heap) (r : Nat) (a : List String) : Heap :=
  { arrs := h.arrs.set r a }

/-- Task data in the heap embedding: the options field is a reference to a
heap array. -/
structure TaskDataH where
  task : Option TaskDef
  optionsRef : Nat
deriving DecidableEq

/-- The service injector over heap task data (external collaborator;
it receives the task data record, not the heap). -/
def InjectorH : Type := TaskDataH → String → String → TaskDataH

/-- Modelled from the spec: `getTask` in the heap embedding.  The call site
spreads the options (`getTask(allTasks, 'tap', ...options)`), so the callee
receives a fresh rest array holding the passed token values. -/
def getTaskH (h : Heap) (tasks : Tasks) (command : String)
    (optVals : List String) : Heap × TaskDataH :=
  let res := h.allocArr optVals
  (res.1, { task := alookup tasks command, optionsRef := res.2 })

/-- Outcome of `checkLinkedTaps` in the heap embedding. -/
inductive ResolveOutcomeH where
  | noLinkH
  | resolvedH (td : TaskDataH)
  | exitedH (code : Nat) (logs : List String)
deriving DecidableEq

/-- `checkLinkedTaps` rendered over the heap: the caller's options array is
passed by reference (`optRef`); the source's `options = [ ...options ]`
copy becomes a fresh allocation, and the `splice` becomes a write to the
array reference held by the located task data. -/
def checkLinkedTapsH (reqr : Requirer) (injH : InjectorH)
    (globalConfig : GlobalConfig) (tasks : Tasks) (command : String)
    (h : Heap) (optRef : Nat) : Heap × ResolveOutcomeH :=
  match tlookup globalConfig command with
  | none => (h, ResolveOutcomeH.noLinkH)
  | some tapObj =>
    if tapObj.path = "" then (h, ResolveOutcomeH.noLinkH)
    else
      match resolveAllTasks reqr globalConfig tasks command
          (h.readArr optRef) tapObj with
      | TasksOutcome.exited c logs => (h, ResolveOutcomeH.exitedH c logs)
      | TasksOutcome.ok allTasks =>
        -- options = [ ...options ]
        let copyRes := h.allocArr (h.readArr optRef)
        let h1 := copyRes.1
        -- getTask(allTasks, 'tap', ...options): spread of the copy
        let tdRes := getTaskH h1 allTasks "tap" (h1.readArr copyRes.2)
        let h2 := tdRes.1
        let td := tdRes.2
        -- taskData.options.splice(taskData.options.length - 1, 0, ...)
        let h3 := h2.writeArr td.optionsRef
          (spliceSecondToLast (h2.readArr td.optionsRef) ("tap=" ++ command))
        if (td.task.map TaskDef.inject).getD false then
          (h3, ResolveOutcomeH.resolvedH (injH td command tapObj.path))
        else (h3, ResolveOutcomeH.resolvedH td)

/-- Outcome of `findTask` in the heap embedding. -/
inductive FindOutcomeH where
  | notFoundH
  | foundH (td : TaskDataH)
  | exitedFH (code : Nat) (logs : List String)
deriving DecidableEq

/-- `findTask` rendered over the heap: the trailing-token help check reads
the caller's array (`optRef`) after `checkLinkedTaps` has returned. -/
def findTaskH (reqr : Requirer) (injH : InjectorH)
    (globalConfig : GlobalConfig) (tasks : Tasks) (command : String)
    (h : Heap) (optRef : Nat) : Heap × FindOutcomeH :=
  let res := checkLinkedTapsH reqr injH globalConfig tasks command h optRef
  let h1 := res.1
  match res.2 with
  | ResolveOutcomeH.exitedH c logs => (h1, FindOutcomeH.exitedFH c logs)
  | ResolveOutcomeH.resolvedH td =>
    if validateTask td.task (hasHelpArg (h1.readArr optRef).getLast?) then
      (h1, FindOutcomeH.foundH td)
    else (h1, FindOutcomeH.notFoundH)
  | ResolveOutcomeH.noLinkH =>
    -- getTask(tasks, command, ...options): spread of the caller's array
    let tdRes := getTaskH h1 tasks command (h1.readArr optRef)
    let h2 := tdRes.1
    let td := tdRes.2
    if validateTask td.task (hasHelpArg (h2.readArr optRef).getLast?) then
      (h2, FindOutcomeH.foundH td)
    else (h2, FindOutcomeH.notFoundH)

/-! ## Concrete fixtures used by witnesses and counterexamples -/

/-- A module loader whose `require` always throws. -/
def reqrErr : Requirer := fun _ => Except.error "boom"

/-- The identity service injector. -/
def injId : Injector := fun td _ _ => td

/-- The identity service injector across the heap embedding. -/
def injHId : InjectorH := fun td _ _ => td

/-- A filesystem with no tasks folder anywhere. -/
def fsEmpty : FileSys :=
  { findPathByName := fun _ => [], checkPathExists := fun _ => false }

/-- A filesystem where a `tasks` folder is found but no file exists (the
index file is missing). -/
def fsNoIndex : FileSys :=
  { findPathByName := fun _ => ["/b/tasks"], checkPathExists := fun _ => false }

/-- Config with an existing link `x -> /a` (no custom tasks). -/
def cfgXa : GlobalConfig :=
  { tapLinks := some [("x", { path := "/a", tasks := none })] }

/-- Config with an existing link `x -> /a` that carries a custom-task
entry file. -/
def cfgXaTasks : GlobalConfig :=
  { tapLinks := some [("x", { path := "/a",
                              tasks := some "/a/tasks/index.js" })] }

/-- Config of the spec scenario: `tapLinks = { mytap: { path: "/repos/mytap" } }`. -/
def cfgMytap : GlobalConfig :=
  { tapLinks := some [("mytap", { path := "/repos/mytap", tasks := none })] }

/-- Config with a linked tap that declares a custom-task entry file. -/
def cfgTapTasks : GlobalConfig :=
  { tapLinks := some [("t", { path := "/p",
                              tasks := some "/p/tasks/index.js" })] }

/-- Config whose tap-links container is absent. -/
def cfgNoLinks : GlobalConfig := { tapLinks := none }

/-- The built-in `tap` forwarding task (no service injection). -/
def tapTaskDef : TaskDef := { id := "tap", inject := false }

/-- Base registry holding just the built-in `tap` task. -/
def tasksWithTap : Tasks := [("tap", tapTaskDef)]

/-! ## Shared helper lemmas -/

/-- `checkTapLocation` always returns the supplied location as the path,
keeping the tasks entry. -/
theorem checkTapLocation_eq (t : TapLink) (loc : String) :
    checkTapLocation t loc = { path := loc, tasks := t.tasks } := by
  cases t with
  | mk p ts =>
    unfold checkTapLocation
    by_cases hp : p = "" ∨ p ≠ loc
    · simp [hp]
    · push_neg at hp
      simp [hp.2]

/-- Lookup of an association list distributes over append. -/
theorem alookup_append {α : Type} (l1 l2 : List (String × α)) (k : String) :
    alookup (l1 ++ l2) k = (alookup l1 k).or (alookup l2 k) := by
  induction l1 with
  | nil => simp [alookup]
  | cons hd tl ih =>
    cases hd with
    | mk k0 v0 =>
      by_cases hk : k0 = k
      · simp [alookup, hk]
      · simp [alookup, hk, ih]

/-- Setting one key leaves lookups of other keys unchanged. -/
theorem alookup_aset_ne {α : Type} (l : List (String × α)) (k k' : String)
    (v : α) (hne : k ≠ k') : alookup (aset l k v) k' = alookup l k' := by
  induction l with
  | nil => simp [aset, alookup, hne]
  | cons hd tl ih =>
    cases hd with
    | mk k0 v0 =>
      by_cases hk : k0 = k
      · subst hk
        simp [aset, alookup, hne]
      · simp [aset, alookup, hk, ih]

/-- The splice on an array ending in `y` puts the new token right before
`y`. -/
theorem spliceSecondToLast_concat (ys : List String) (y x : String) :
    spliceSecondToLast (ys ++ [y]) x = ys ++ [x, y] := by
  unfold spliceSecondToLast
  have hl : (ys ++ [y]).length - 1 = ys.length := by simp
  rw [hl, List.take_left' rfl, List.drop_left' rfl]
  simp

/-- The splice grows the array by exactly one element. -/
theorem spliceSecondToLast_length (l : List String) (x : String) :
    (spliceSecondToLast l x).length = l.length + 1 := by
  simp [spliceSecondToLast]
  omega

/-- Second projection of a branch over pairs. -/
theorem snd_ite {α β : Type} {c : Prop} [Decidable c] (a b : α) (x y : β) :
    (if c then (a, x) else (b, y)).2 = if c then x else y := by
  split <;> rfl

/-- First projection of a branch over pairs. -/
theorem fst_ite {α β : Type} {c : Prop} [Decidable c] (a b : α) (x y : β) :
    (if c then (a, x) else (b, y)).1 = if c then a else b := by
  split <;> rfl

/-- Allocating a fresh array leaves every valid reference readable as
before. -/
theorem readArr_allocArr (h : Heap) (a : List String) (r : Nat)
    (hr : r < h.arrs.length) : (h.allocArr a).1.readArr r = h.readArr r := by
  simp [Heap.allocArr, Heap.readArr, List.getD_eq_getElem?_getD,
    List.getElem?_append_left hr]

/-- Writing one reference leaves every other reference readable as
before. -/
theorem readArr_writeArr_ne (h : Heap) (r r' : Nat) (a : List String)
    (hne : r ≠ r') : (h.writeArr r a).readArr r' = h.readArr r' := by
  simp [Heap.writeArr, Heap.readArr, List.getD_eq_getElem?_getD,
    List.getElem?_set_ne hne]

/-- The splice preserves the last element of a nonempty array. -/
theorem spliceSecondToLast_getLast? (l : List String) (x : String)
    (h : l ≠ []) :
    (spliceSecondToLast l x).getLast? = l.getLast? := by
  rcases List.eq_nil_or_concat l with rfl | ⟨ys, y, hl⟩
  · exact absurd rfl h
  · subst hl
    rw [List.concat_eq_append, spliceSecondToLast_concat]
    rw [show ys ++ [x, y] = (ys ++ [x]) ++ [y] by simp]
    rw [List.getLast?_concat, List.getLast?_concat]

/-- The splice puts the new token at the second-to-last position of the
result (index `l.length - 1`) for a nonempty array. -/
theorem spliceSecondToLast_getD (l : List String) (x : String)
    (h : l ≠ []) :
    (spliceSecondToLast l x).getD (l.length - 1) "" = x := by
  rcases List.eq_nil_or_concat l with rfl | ⟨ys, y, hl⟩
  · exact absurd rfl h
  · subst hl
    rw [List.concat_eq_append, spliceSecondToLast_concat]
    have hlen : (ys ++ [y]).length - 1 = ys.length := by simp
    rw [hlen]
    simp [List.getD_eq_getElem?_getD,
      List.getElem?_append_right (Nat.le_refl ys.length)]

/-! ## Claim theorems -/

/-- Claim C9: whenever the registration builder `buildTapObj` returns a tap
object rather than false, that object's `path` field equals the supplied
`location` argument — the stored path is unconditionally replaced by the
new location on every confirmed registration, including when the prior
stored path differed and when the location is empty. -/
theorem buildTapObj_path_eq_location
    (fs : FileSys) (confirm : Bool) (cfg : GlobalConfig) (silent : Bool)
    (name location : String) (tapObj : TapLink)
    (h : buildTapObj fs confirm cfg silent name location = some tapObj) :
    tapObj.path = location := by
  by_cases ha :
      ensureAddLink (tlookup cfg name) name location silent confirm = true
  · simp only [buildTapObj, ha] at h
    rw [checkTapLocation_eq] at h
    simp only [Bool.true_eq_false, if_false] at h
    cases hc : (checkCustomTaskFile fs
        { path := location,
          tasks := ((tlookup cfg name).getD defaultTapLink).tasks }).1 with
    | none =>
      rw [hc] at h
      simp only [Option.some.injEq] at h
      rw [← h]
    | some f =>
      rw [hc] at h
      simp only [Option.some.injEq] at h
      rw [← h]
  · rw [Bool.not_eq_true] at ha
    simp [buildTapObj, ha] at h

/-- Claim C9 witness: a concrete confirmed registration over a differing
prior path yields a link whose path is the supplied location. -/
theorem buildTapObj_path_eq_location_witness :
    TapLink.path { path := "/b", tasks := none } = "/b" :=
  buildTapObj_path_eq_location fsEmpty true cfgXa false "x" "/b"
    { path := "/b", tasks := none } (by decide)

/-- Claim C3: when a tap-link registration is attempted over an existing
link and the operator declines the overwrite (prompt answered false,
`silent = false`), `buildTapObj` returns false, the command logs the
canceled message without saving, and the global config keeps the previous
link untouched. -/
theorem overwrite_declined_no_mutation
    (fs : FileSys) (cfg : GlobalConfig) (name location : String)
    (cur : TapLink) (hcur : tlookup cfg name = some cur)
    (hloc : location ≠ "") :
    buildTapObj fs false cfg false name location = none ∧
    linkTap fs false cfg false name location =
      { config := cfg, saved := false, logs := ["Tap link canceled!"] } ∧
    tlookup (linkTap fs false cfg false name location).config name =
      some cur := by
  have hb : buildTapObj fs false cfg false name location = none := by
    simp [buildTapObj, ensureAddLink, hcur, hloc]
  refine ⟨hb, ?_, ?_⟩
  · simp [linkTap, hb]
  · simp [linkTap, hb, hcur]

/-- Claim C3 witness: the spec scenario — existing link `x -> /a`,
registration with location `/b`, silent false, operator declines. -/
theorem overwrite_declined_no_mutation_witness :
    buildTapObj fsEmpty false cfgXa false "x" "/b" = none ∧
    linkTap fsEmpty false cfgXa false "x" "/b" =
      { config := cfgXa, saved := false, logs := ["Tap link canceled!"] } ∧
    tlookup (linkTap fsEmpty false cfgXa false "x" "/b").config "x" =
      some { path := "/a", tasks := none } :=
  overwrite_declined_no_mutation fsEmpty cfgXa "x" "/b"
    { path := "/a", tasks := none } (by decide) (by decide)

/-- Claim C2 is false as stated: the final clause quantifies over every
differing location, but for the empty location the non-empty-path guard in
`ensureAddLink` is skipped, so a silent registration over the existing link
`x -> /a` with location `""` saves and overwrites the stored path with
`""`. -/
theorem silent_empty_location_overwrites :
    (tlookup cfgXa "x").map TapLink.path = some "/a" ∧
    ("" : String) ≠ "/a" ∧
    (linkTap fsEmpty false cfgXa true "x" "").saved = true ∧
    (tlookup (linkTap fsEmpty false cfgXa true "x" "").config "x").map
      TapLink.path = some "" := by decide

/-- Claim C2 (amended): for every existing tap link and non-empty new
path, the overwrite check with silent set returns false (treated as
declined, never auto-overwrites), and for every call with no existing link
it returns true regardless of silent; consequently registration with
`silent = true` over an existing link with a differing *non-empty*
location never mutates the stored config (and performs no save). -/
theorem silent_never_overwrites :
    (∀ (cur : TapLink) (name tapPath : String) (confirm : Bool),
        tapPath ≠ "" →
        ensureAddLink (some cur) name tapPath true confirm = false) ∧
    (∀ (name tapPath : String) (silent confirm : Bool),
        ensureAddLink none name tapPath silent confirm = true) ∧
    (∀ (fs : FileSys) (confirm : Bool) (cfg : GlobalConfig)
        (name location : String) (cur : TapLink),
        tlookup cfg name = some cur → location ≠ "" →
        location ≠ cur.path →
        (linkTap fs confirm cfg true name location).config = cfg ∧
        (linkTap fs confirm cfg true name location).saved = false) := by
  refine ⟨?_, ?_, ?_⟩
  · intro cur name tapPath confirm hne
    simp [ensureAddLink, hne]
  · intro name tapPath silent confirm
    simp [ensureAddLink]
  · intro fs confirm cfg name location cur hcur hloc hdiff
    have hb : buildTapObj fs confirm cfg true name location = none := by
      simp [buildTapObj, ensureAddLink, hcur, hloc]
    constructor <;> simp [linkTap, hb]

/-- Claim C2 witness: the three parts at concrete inputs — silent check
declined over `x -> /a` with path `/b`; accept with no existing link; no
mutation from a silent registration over `x -> /a` with location `/b`. -/
theorem silent_never_overwrites_witness :
    ensureAddLink (some { path := "/a", tasks := none }) "x" "/b" true true
      = false ∧
    ensureAddLink none "x" "/b" false true = true ∧
    ((linkTap fsEmpty true cfgXa true "x" "/b").config = cfgXa ∧
      (linkTap fsEmpty true cfgXa true "x" "/b").saved = false) :=
  ⟨silent_never_overwrites.1 { path := "/a", tasks := none } "x" "/b" true
      (by decide),
   silent_never_overwrites.2.1 "x" "/b" false true,
   silent_never_overwrites.2.2 fsEmpty true cfgXa "x" "/b"
      { path := "/a", tasks := none } (by decide) (by decide) (by decide)⟩

/-- Claim C7 is false in one corner: when the re-registered link already
carried a custom-task entry, a found `tasks` folder with a missing index
file is reported absent (with the warning), registration succeeds — but
the produced link retains the old custom-task path instead of being
"without custom tasks". -/
theorem missing_index_keeps_stale_tasks :
    checkCustomTaskFile fsNoIndex
      { path := "/b", tasks := some "/a/tasks/index.js" } = (none, true) ∧
    buildTapObj fsNoIndex true cfgXaTasks false "x" "/b" =
      some { path := "/b", tasks := some "/a/tasks/index.js" } ∧
    some "/a/tasks/index.js" ≠ (none : Option String) := by decide

/-- Claim C7 (amended): when the `tasks` directory exists but its index
file is missing, the locator logs the warning and reports the entry as
absent (non-fatal), and the registration still succeeds — the produced
link carries no custom-task entry beyond whatever the pre-existing link
already stored (none at all for a fresh link). -/
theorem missing_index_warns_and_link_succeeds
    (fs : FileSys) (confirm : Bool) (cfg : GlobalConfig) (silent : Bool)
    (name location p : String)
    (hadd : ensureAddLink (tlookup cfg name) name location silent confirm
      = true)
    (hfind : (fs.findPathByName location).head? = some p) (hp : p ≠ "")
    (hidx : fs.checkPathExists (joinPath p "index.js") = false) :
    checkCustomTaskFile fs
      { path := location,
        tasks := ((tlookup cfg name).getD defaultTapLink).tasks } =
      (none, true) ∧
    buildTapObj fs confirm cfg silent name location =
      some { path := location,
             tasks := ((tlookup cfg name).getD defaultTapLink).tasks } := by
  have hc : checkCustomTaskFile fs
      { path := location,
        tasks := ((tlookup cfg name).getD defaultTapLink).tasks } =
      (none, true) := by
    simp [checkCustomTaskFile, hfind, hp, hidx]
  refine ⟨hc, ?_⟩
  simp only [buildTapObj, hadd, Bool.true_eq_false, if_false]
  rw [checkTapLocation_eq, hc]

/-- Claim C7 witness: a fresh link (no prior entry) against a filesystem
whose tasks folder lacks the index file — warning, absent entry, and a
link with no custom tasks. -/
theorem missing_index_warns_and_link_succeeds_witness :
    checkCustomTaskFile fsNoIndex
      { path := "/b",
        tasks := ((tlookup cfgNoLinks "x").getD defaultTapLink).tasks } =
      (none, true) ∧
    buildTapObj fsNoIndex true cfgNoLinks false "x" "/b" =
      some { path := "/b",
             tasks := ((tlookup cfgNoLinks "x").getD defaultTapLink).tasks } :=
  missing_index_warns_and_link_succeeds fsNoIndex true cfgNoLinks false
    "x" "/b" "/b/tasks" (by decide) (by decide) (by decide) (by decide)

/-- The net result of a loaded tap task module: a factory function is
invoked with the resolution context, a static mapping is used directly. -/
def loadedTasksOf (lm : LoadedModule) (args : CustomArgs) :
    Except String Tasks :=
  match lm with
  | LoadedModule.func f => f args
  | LoadedModule.obj t => Except.ok t

/-- Claim C6: when a linked tap declares a custom-task entry, the loaded
custom task mapping is merged over the base task set with custom
definitions winning on every name collision; when the link declares no
custom-task entry, the base task set is used unchanged. -/
theorem custom_tasks_merge :
    (∀ (reqr : Requirer) (args : CustomArgs) (taskFile : String)
        (lm : LoadedModule) (lt : Tasks),
        reqr taskFile = Except.ok lm →
        loadedTasksOf lm args = Except.ok lt →
        getCustomTasks reqr args taskFile =
          TasksOutcome.ok (mergeTasks args.tasks lt) ∧
        ∀ k, alookup (mergeTasks args.tasks lt) k =
          (alookup lt k).or (alookup args.tasks k)) ∧
    (∀ (reqr : Requirer) (cfg : GlobalConfig) (tasks : Tasks)
        (command : String) (options : List String) (tapObj : TapLink),
        optStrFalsy tapObj.tasks = true →
        resolveAllTasks reqr cfg tasks command options tapObj =
          TasksOutcome.ok tasks) := by
  constructor
  · intro reqr args taskFile lm lt hreq hload
    have hmain : getCustomTasks reqr args taskFile =
        TasksOutcome.ok (mergeTasks args.tasks lt) := by
      cases lm with
      | func f =>
        simp only [loadedTasksOf] at hload
        simp [getCustomTasks, hreq, hload]
      | obj t =>
        simp only [loadedTasksOf, Except.ok.injEq] at hload
        simp [getCustomTasks, hreq, hload]
    exact ⟨hmain, fun k => alookup_append lt args.tasks k⟩
  · intro reqr cfg tasks command options tapObj hinert
    simp [resolveAllTasks, hinert]

/-- Claim C6 witness: a static tap module shadowing the built-in `tap`
task wins the collision, and an inert link leaves the base set unchanged. -/
theorem custom_tasks_merge_witness :
    (getCustomTasks (fun _ => Except.ok
        (LoadedModule.obj [("tap", { id := "custom-tap", inject := false })]))
      { globalConfig := cfgMytap, tasks := tasksWithTap,
        command := "mytap", options := [] } "/p/tasks/index.js" =
      TasksOutcome.ok (mergeTasks tasksWithTap
        [("tap", { id := "custom-tap", inject := false })]) ∧
      alookup (mergeTasks tasksWithTap
          [("tap", { id := "custom-tap", inject := false })]) "tap" =
        (alookup [("tap", { id := "custom-tap", inject := false })]
            "tap").or (alookup tasksWithTap "tap")) ∧
    resolveAllTasks reqrErr cfgMytap tasksWithTap "mytap" []
      { path := "/repos/mytap", tasks := none } =
      TasksOutcome.ok tasksWithTap :=
  ⟨⟨(custom_tasks_merge.1 (fun _ => Except.ok
        (LoadedModule.obj [("tap", { id := "custom-tap", inject := false })]))
      { globalConfig := cfgMytap, tasks := tasksWithTap,
        command := "mytap", options := [] } "/p/tasks/index.js"
      (LoadedModule.obj [("tap", { id := "custom-tap", inject := false })])
      [("tap", { id := "custom-tap", inject := false })] rfl rfl).1,
    (custom_tasks_merge.1 (fun _ => Except.ok
        (LoadedModule.obj [("tap", { id := "custom-tap", inject := false })]))
      { globalConfig := cfgMytap, tasks := tasksWithTap,
        command := "mytap", options := [] } "/p/tasks/index.js"
      (LoadedModule.obj [("tap", { id := "custom-tap", inject := false })])
      [("tap", { id := "custom-tap", inject := false })] rfl rfl).2 "tap"⟩,
   custom_tasks_merge.2 reqrErr cfgMytap tasksWithTap "mytap" []
      { path := "/repos/mytap", tasks := none } (by decide)⟩

/-- Claim C8: for every tap whose custom task module fails at load time or
when invoked, the fault is caught, logged with the offending path, and the
process terminates with status 1 (non-zero); the resolution returns the
global config unchanged (no mutation). -/
theorem tap_module_failure_fatal
    (reqr : Requirer) (inj : Injector) (cfg : GlobalConfig) (tasks : Tasks)
    (command : String) (options : List String) (tapObj : TapLink)
    (tf msg : String)
    (hlink : tlookup cfg command = some tapObj)
    (hpath : tapObj.path ≠ "")
    (htf : tapObj.tasks = some tf) (htf2 : tf ≠ "")
    (hfail : reqr tf = Except.error msg ∨
      ∃ f, reqr tf = Except.ok (LoadedModule.func f) ∧
        f { globalConfig := cfg, tasks := tasks, command := command,
            options := options } = Except.error msg) :
    getCustomTasks reqr
      { globalConfig := cfg, tasks := tasks, command := command,
        options := options } tf =
      TasksOutcome.exited 1
        ["Error loading custom tasks from path " ++ tf, msg] ∧
    findTask reqr inj cfg tasks command options =
      (cfg, FindOutcome.exited 1
        ["Error loading custom tasks from path " ++ tf, msg]) := by
  have hg : getCustomTasks reqr
      { globalConfig := cfg, tasks := tasks, command := command,
        options := options } tf =
      TasksOutcome.exited 1
        ["Error loading custom tasks from path " ++ tf, msg] := by
    rcases hfail with h | ⟨f, hf, hfa⟩
    · simp [getCustomTasks, h]
    · simp [getCustomTasks, hf, hfa]
  have hr : resolveAllTasks reqr cfg tasks command options tapObj =
      TasksOutcome.exited 1
        ["Error loading custom tasks from path " ++ tf, msg] := by
    have hfalsy : optStrFalsy (some tf) = false := by
      simp [optStrFalsy, htf2]
    simp [resolveAllTasks, htf, hfalsy, hg]
  have hc : checkLinkedTaps reqr inj cfg tasks command options =
      (cfg, ResolveOutcome.exited 1
        ["Error loading custom tasks from path " ++ tf, msg]) := by
    simp [checkLinkedTaps, hlink, hpath, hr]
  exact ⟨hg, by simp [findTask, hc]⟩

/-- Claim C8 witness: a linked tap whose module load throws — the resolver
exits with status 1, logging the entry path, and the config is returned
unchanged. -/
theorem tap_module_failure_fatal_witness :
    getCustomTasks reqrErr
      { globalConfig := cfgTapTasks, tasks := tasksWithTap, command := "t",
        options := ["--a"] } "/p/tasks/index.js" =
      TasksOutcome.exited 1
        ["Error loading custom tasks from path " ++ "/p/tasks/index.js",
         "boom"] ∧
    findTask reqrErr injId cfgTapTasks tasksWithTap "t" ["--a"] =
      (cfgTapTasks, FindOutcome.exited 1
        ["Error loading custom tasks from path " ++ "/p/tasks/index.js",
         "boom"]) :=
  tap_module_failure_fatal reqrErr injId cfgTapTasks tasksWithTap "t"
    ["--a"] { path := "/p", tasks := some "/p/tasks/index.js" }
    "/p/tasks/index.js" "boom" (by decide) (by decide) (by decide)
    (by decide) (Or.inl rfl)

/-- Claim C5: for every command whose tap-links entry is absent or lacks a
path value, the tap-link check yields no reroute (`noLink`), and the
resolution outcome is exactly the one obtained with no tap links at all —
a direct lookup against the unmerged base task set. -/
theorem inert_link_falls_through
    (reqr : Requirer) (inj : Injector) (cfg : GlobalConfig) (tasks : Tasks)
    (command : String) (options : List String)
    (hinert : tlookup cfg command = none ∨
      ∃ tapObj, tlookup cfg command = some tapObj ∧ tapObj.path = "") :
    (checkLinkedTaps reqr inj cfg tasks command options).2 =
      ResolveOutcome.noLink ∧
    (findTask reqr inj cfg tasks command options).2 =
      (findTask reqr inj cfgNoLinks tasks command options).2 := by
  have hnl : checkLinkedTaps reqr inj cfg tasks command options =
      (cfg, ResolveOutcome.noLink) := by
    rcases hinert with h | ⟨tapObj, h, hp⟩
    · simp [checkLinkedTaps, h]
    · simp [checkLinkedTaps, h, hp]
  have hnl2 : checkLinkedTaps reqr inj cfgNoLinks tasks command options =
      (cfgNoLinks, ResolveOutcome.noLink) := by
    simp [checkLinkedTaps, tlookup, cfgNoLinks]
  exact ⟨by rw [hnl], by simp [findTask, hnl, hnl2, snd_ite]⟩

/-- Claim C5 witness: a link whose entry lacks a path is inert — command
`"x"` with stored path `""` falls through to the direct lookup. -/
theorem inert_link_falls_through_witness :
    (checkLinkedTaps reqrErr injId
        { tapLinks := some [("x", { path := "", tasks := none })] }
        tasksWithTap "x" ["--a"]).2 = ResolveOutcome.noLink ∧
    (findTask reqrErr injId
        { tapLinks := some [("x", { path := "", tasks := none })] }
        tasksWithTap "x" ["--a"]).2 =
      (findTask reqrErr injId cfgNoLinks tasksWithTap "x" ["--a"]).2 :=
  inert_link_falls_through reqrErr injId
    { tapLinks := some [("x", { path := "", tasks := none })] }
    tasksWithTap "x" ["--a"]
    (Or.inr ⟨{ path := "", tasks := none }, by decide, rfl⟩)

/-- Claim C4: for every command that is a key in the tap links with a
non-empty path, resolution reroutes through the tap path: the tap check
does not yield `noLink`, and the resolver's outcome is independent of the
base-registry binding of the same command name (the direct lookup only
runs when the tap check yields nothing).  Stated for a link with no
custom-task entry and a command other than the handler name `"tap"`, so
the rebinding cannot flow in through the loader context or the handler
lookup. -/
theorem tap_priority_over_builtin
    (reqr : Requirer) (inj : Injector) (cfg : GlobalConfig) (tasks : Tasks)
    (command : String) (options : List String) (tapObj : TapLink)
    (hlink : tlookup cfg command = some tapObj)
    (hpath : tapObj.path ≠ "")
    (hinert : optStrFalsy tapObj.tasks = true)
    (hcmd : command ≠ "tap") :
    (checkLinkedTaps reqr inj cfg tasks command options).2 ≠
      ResolveOutcome.noLink ∧
    ∀ t : TaskDef,
      findTask reqr inj cfg (aset tasks command t) command options =
        findTask reqr inj cfg tasks command options := by
  have hra : ∀ ts : Tasks,
      resolveAllTasks reqr cfg ts command options tapObj =
        TasksOutcome.ok ts := by
    intro ts
    simp [resolveAllTasks, hinert]
  have hrt : ∃ td, checkLinkedTaps reqr inj cfg tasks command options =
      (cfg, ResolveOutcome.resolved td) := by
    simp only [checkLinkedTaps, hlink]
    rw [if_neg hpath]
    simp only [hra tasks]
    split
    · exact ⟨_, rfl⟩
    · exact ⟨_, rfl⟩
  obtain ⟨td, htd⟩ := hrt
  constructor
  · rw [htd]
    simp
  · intro t
    have halook := alookup_aset_ne tasks command "tap" t hcmd
    have h1 : checkLinkedTaps reqr inj cfg (aset tasks command t) command
        options = (cfg, ResolveOutcome.resolved td) := by
      rw [← htd]
      simp [checkLinkedTaps, hlink, hpath, hra, getTask, halook]
    simp [findTask, h1, htd]

/-- Claim C1 is false on its own scenario: with
`tapLinks = { mytap: { path: "/repos/mytap" } }`, command `"mytap"` and
options `["--verbose"]`, the splice at index `length - 1 = 0` inserts the
synthetic token *before* the single trailing token, so the resulting
options are `["tap=mytap", "--verbose"]`, not `["--verbose", "tap=mytap"]`
as the claim's scenario asserts. -/
theorem tap_token_scenario_counterexample :
    (checkLinkedTaps reqrErr injId cfgMytap tasksWithTap "mytap"
        ["--verbose"]).2 =
      ResolveOutcome.resolved
        { task := some tapTaskDef,
          options := ["tap=mytap", "--verbose"],
          params := some { tap := "mytap" } } ∧
    (["tap=mytap", "--verbose"] : List String) ≠
      ["--verbose", "tap=mytap"] := by decide

/-- Claim C1 (amended): when the resolver reroutes a command to a linked
tap, it inserts the synthetic option token `tap=<command>` at the
second-to-last position of the resulting option list, keeping the trailing
token (the help flag, when one is present) as the last element; in
particular, for `tapLinks = { mytap: { path: "/repos/mytap" } }`, command
`"mytap"` and options `["--verbose"]`, the resulting options list is
`["tap=mytap", "--verbose"]`. -/
theorem tap_token_inserted_second_to_last
    (reqr : Requirer) (inj : Injector) (cfg : GlobalConfig) (tasks : Tasks)
    (command : String) (options : List String) (tapObj : TapLink)
    (allT : Tasks)
    (hlink : tlookup cfg command = some tapObj)
    (hpath : tapObj.path ≠ "")
    (hload : resolveAllTasks reqr cfg tasks command options tapObj =
      TasksOutcome.ok allT)
    (hinj : ((alookup allT "tap").map TaskDef.inject).getD false = false)
    (hne : options ≠ []) :
    (checkLinkedTaps reqr inj cfg tasks command options).2 =
      ResolveOutcome.resolved
        { task := alookup allT "tap",
          options := spliceSecondToLast options ("tap=" ++ command),
          params := some { tap := command } } ∧
    (spliceSecondToLast options ("tap=" ++ command)).getLast? =
      options.getLast? ∧
    (spliceSecondToLast options ("tap=" ++ command)).length =
      options.length + 1 ∧
    (spliceSecondToLast options ("tap=" ++ command)).getD
      (options.length - 1) "" = "tap=" ++ command := by
  refine ⟨?_, spliceSecondToLast_getLast? options _ hne,
    spliceSecondToLast_length options _,
    spliceSecondToLast_getD options _ hne⟩
  simp only [checkLinkedTaps, hlink]
  rw [if_neg hpath]
  simp only [hload]
  simp [getTask, parseArgs, injectFlag, hinj]

/-- Claim C1 witness: the amended claim at the spec scenario — the
resulting options are the splice of `["--verbose"]`, i.e.
`["tap=mytap", "--verbose"]`, with the trailing token kept last. -/
theorem tap_token_inserted_second_to_last_witness :
    (checkLinkedTaps reqrErr injId cfgMytap tasksWithTap "mytap"
        ["--verbose"]).2 =
      ResolveOutcome.resolved
        { task := alookup tasksWithTap "tap",
          options := spliceSecondToLast ["--verbose"] ("tap=" ++ "mytap"),
          params := some { tap := "mytap" } } ∧
    (spliceSecondToLast ["--verbose"] ("tap=" ++ "mytap")).getLast? =
      (["--verbose"] : List String).getLast? ∧
    (spliceSecondToLast ["--verbose"] ("tap=" ++ "mytap")).length =
      (["--verbose"] : List String).length + 1 ∧
    (spliceSecondToLast ["--verbose"] ("tap=" ++ "mytap")).getD
      ((["--verbose"] : List String).length - 1) "" = "tap=" ++ "mytap" :=
  tap_token_inserted_second_to_last reqrErr injId cfgMytap tasksWithTap
    "mytap" ["--verbose"] { path := "/repos/mytap", tasks := none }
    tasksWithTap (by decide) (by decide) (by decide) (by decide) (by decide)

/-- Claim C4 witness: the tap name `"mytap"` collides with a base task of
the same name; the tap check fires and the outcome ignores the base
binding. -/
theorem tap_priority_over_builtin_witness :
    (checkLinkedTaps reqrErr injId cfgMytap tasksWithTap "mytap"
        ["--a"]).2 ≠ ResolveOutcome.noLink ∧
    findTask reqrErr injId cfgMytap
        (aset tasksWithTap "mytap" { id := "builtin-mytap", inject := false })
        "mytap" ["--a"] =
      findTask reqrErr injId cfgMytap tasksWithTap "mytap" ["--a"] :=
  ⟨(tap_priority_over_builtin reqrErr injId cfgMytap tasksWithTap "mytap"
      ["--a"] { path := "/repos/mytap", tasks := none } (by decide)
      (by decide) (by decide) (by decide)).1,
   (tap_priority_over_builtin reqrErr injId cfgMytap tasksWithTap "mytap"
      ["--a"] { path := "/repos/mytap", tasks := none } (by decide)
      (by decide) (by decide) (by decide)).2
      { id := "builtin-mytap", inject := false }⟩

/-- `checkLinkedTapsH` never writes through the caller's options
reference, and never shrinks the heap. -/
theorem checkLinkedTapsH_frame (reqr : Requirer) (injH : InjectorH)
    (cfg : GlobalConfig) (tasks : Tasks) (command : String) (h : Heap)
    (optRef : Nat) (hvalid : optRef < h.arrs.length) :
    (checkLinkedTapsH reqr injH cfg tasks command h optRef).1.readArr
        optRef = h.readArr optRef ∧
    h.arrs.length ≤
      (checkLinkedTapsH reqr injH cfg tasks command h optRef).1.arrs.length := by
  cases htl : tlookup cfg command with
  | none => simp [checkLinkedTapsH, htl]
  | some tapObj =>
    by_cases hp : tapObj.path = ""
    · simp [checkLinkedTapsH, htl, hp]
    · cases hres : resolveAllTasks reqr cfg tasks command
          (h.readArr optRef) tapObj with
      | exited c logs => simp [checkLinkedTapsH, htl, hp, hres]
      | ok allTasks =>
        have hne : (h.arrs ++ [h.readArr optRef]).length ≠ optRef := by
          simp
          omega
        simp only [checkLinkedTapsH, htl]
        rw [if_neg hp]
        simp only [hres, getTaskH, Heap.allocArr, fst_ite, ite_self]
        constructor
        · rw [readArr_writeArr_ne _ _ _ _ hne]
          simp only [Heap.readArr, List.getD_eq_getElem?_getD]
          rw [List.getElem?_append_left, List.getElem?_append_left hvalid]
          simp
          omega
        · simp [Heap.writeArr]

/-- Claim C10: for every input options array, resolution never mutates the
caller's array: the tap-reroute path splices the synthetic tap token into
a freshly allocated array, so reading the caller's reference after
`findTaskH` returns (including its last element, used for help-flag
detection) gives exactly the original tokens. -/
theorem resolver_never_mutates_caller_options
    (reqr : Requirer) (injH : InjectorH) (cfg : GlobalConfig)
    (tasks : Tasks) (command : String) (h : Heap) (optRef : Nat)
    (hvalid : optRef < h.arrs.length) :
    (findTaskH reqr injH cfg tasks command h optRef).1.readArr optRef =
      h.readArr optRef := by
  obtain ⟨hread, hlen⟩ :=
    checkLinkedTapsH_frame reqr injH cfg tasks command h optRef hvalid
  have hvalid2 : optRef <
      (checkLinkedTapsH reqr injH cfg tasks command h optRef).1.arrs.length :=
    Nat.lt_of_lt_of_le hvalid hlen
  cases ho : (checkLinkedTapsH reqr injH cfg tasks command h optRef).2 with
  | exitedH c logs =>
    simp only [findTaskH, ho]
    exact hread
  | resolvedH td =>
    simp only [findTaskH, ho, fst_ite, ite_self]
    exact hread
  | noLinkH =>
    simp only [findTaskH, ho, getTaskH, fst_ite, ite_self]
    rw [readArr_allocArr _ _ _ hvalid2]
    exact hread

/-- Claim C10 witness: a one-array heap holding the caller's
`["--verbose"]`; after resolution through the linked tap the caller's
reference still reads `["--verbose"]`. -/
theorem resolver_never_mutates_caller_options_witness :
    (findTaskH reqrErr injHId cfgMytap tasksWithTap "mytap"
        { arrs := [["--verbose"]] } 0).1.readArr 0 =
      Heap.readArr { arrs := [["--verbose"]] } 0 :=
  resolver_never_mutates_caller_options reqrErr injHId cfgMytap
    tasksWithTap "mytap" { arrs := [["--verbose"]] } 0 (by decide)
